import Mathlib

/-!
Verification of the stack-to-chunk multiscale conversion engine.

This file gives a shallow embedding of the core of the package:

* `Zarr3` models an on-disk 3D zarr array (shape, chunk shape, element data);
* `DaskArr` models the lazily loaded input volume (shape, chunk size, data);
* `Group` models a multiscale zarr group: a list of level arrays keyed by
  their integer level index;
* `copySlab` / `addFullResRun` / `addFullResErr` embed
  `MultiScaleGroup.add_full_res_data` together with `_copy_slab`
  (`main.py` and `_array_helpers.py`);
* `downsampleBlock` / `blockIndices` / `addDownsampleLevelRun` /
  `addDownsampleLevelErr` embed `MultiScaleGroup.add_downsample_level`
  together with `_downsample_block`;
* `getItem` embeds `MultiScaleGroup.__getitem__` and `levels` the
  `MultiScaleGroup.levels` property;
* `openMultiscaleGroup` embeds `open_multiscale_group`.

Machine integers are modelled as `ℤ` (the element values in the test data are
small, so the float64 mean accumulator of `numpy` is exact and is modelled by
exact rational arithmetic followed by truncation towards zero, which is what a
`numpy` `astype` cast to an integer dtype performs).  Each Python `raise` site
is modelled by a distinct constructor of `StcError`; functions that can raise
are split into a `...Err` function computing which error (if any) the call
raises and a `...Run` function computing the resulting state on the
non-raising path.
-/

namespace StackToChunk

/-- A zarr v3 array: logical shape, chunk shape, and the stored element values
(indexed by `(x, y, z)`; only indices below `shape` are meaningful). -/
structure Zarr3 where
  shape : ℕ × ℕ × ℕ
  chunks : ℕ × ℕ × ℕ
  data : ℕ → ℕ → ℕ → ℤ

/-- The lazily loaded input volume handed to `add_full_res_data`:
a 3D dask array with a shape, a chunk size and element data. -/
structure DaskArr where
  shape : ℕ × ℕ × ℕ
  chunksize : ℕ × ℕ × ℕ
  data : ℕ → ℕ → ℕ → ℤ

/-- One constructor per `raise` site of the embedded code, carrying the data
that the Python code interpolates into the exception message. -/
inductive StcError where
  /-- `RuntimeError("Full resolution dataset not present. ...")` -/
  | fullResMissing : StcError
  /-- `ValueError("start_z_idx (...) is not a multiple of chunk_size (...)")` -/
  | startNotMultiple (startZ chunkSize : ℕ) : StcError
  /-- `ValueError("Input array is must have a chunk size of 1 in the third
  dimension. ...")` -/
  | badChunkSize (cs : ℕ × ℕ × ℕ) : StcError
  /-- `ValueError("level must be an integer >= 1")` -/
  | invalidLevel : StcError
  /-- `RuntimeError("Level ... already found in zarr group")` -/
  | levelExists (k : ℤ) : StcError
  /-- `RuntimeError("Level below (level=...) not present in group.")` -/
  | levelBelowMissing (k : ℤ) : StcError
  /-- `ValueError("Given level ... not in added levels ...")` -/
  | notInLevels (k : ℤ) : StcError
  /-- A Python `KeyError`/`IndexError` raised by a failed dict/list lookup;
  carries the missing key. -/
  | keyError (key : String) : StcError
  /-- `ValueError("voxel_size must be length 3")` -/
  | badVoxelSize : StcError
deriving DecidableEq

/-- A multiscale zarr group: the level sub-arrays, keyed by their integer
level index (the on-disk keys are the decimal strings of these integers). -/
structure Group where
  arrays : List (ℤ × Zarr3)

/-- The keys present in the zarr group (`k for k in self._group`). -/
def Group.keys (g : Group) : List ℤ := g.arrays.map Prod.fst

/-- Look up the sub-array stored under key `k` (`self._group[str(k)]`). -/
def Group.lookupArr (g : Group) (k : ℤ) : Option Zarr3 :=
  (g.arrays.find? (fun p => p.1 == k)).map Prod.snd

/-- Insertion into a sorted list of integers, used to model Python `sorted`. -/
def insertSorted (x : ℤ) : List ℤ → List ℤ
  | [] => [x]
  | y :: ys => if x ≤ y then x :: y :: ys else y :: insertSorted x ys

/-- Insertion sort on integers, modelling Python `sorted`. -/
def sortInts : List ℤ → List ℤ
  | [] => []
  | x :: xs => insertSorted x (sortInts xs)

/-- `MultiScaleGroup.levels`: `sorted(int(k) for k in self._group)`. -/
def Group.levels (g : Group) : List ℤ := sortInts g.keys

/-- `MultiScaleGroup.__getitem__(level)`: raise `ValueError` when `level` is
not among the present levels, otherwise return `self._group[str(level)]`. -/
def getItem (g : Group) (level : ℤ) : Except StcError Zarr3 :=
  if level ∈ g.levels then
    match g.lookupArr level with
    | some a => .ok a
    | none => .error (.keyError "level")  -- unreachable: level listed but absent
  else .error (.notInLevels level)

/-- Python `range(0, stop, step)` for `step > 0`: the multiples of `step`
below `stop`. -/
def pyRange (stop step : ℕ) : List ℕ :=
  (List.range ((stop + step - 1) / step)).map (· * step)

/-- Python `int(q)` on a rational: truncation towards zero. -/
def pyInt (q : ℚ) : ℤ := q.num.tdiv q.den

/-- `tuple(math.ceil(i / 2) for i in shape)` (`main.py`, creation of the
downsampled array). -/
def ceilHalf (s : ℕ × ℕ × ℕ) : ℕ × ℕ × ℕ :=
  ((s.1 + 1) / 2, (s.2.1 + 1) / 2, (s.2.2 + 1) / 2)

/-- The chunk size used by `add_full_res_data`:
`self._group["0"].chunks[0]` (`0` when the level-0 array is absent, in which
case the code has already raised). -/
def chunkSize0 (g : Group) : ℕ :=
  match g.lookupArr 0 with
  | some a => a.chunks.1
  | none => 0

/-- `_copy_slab`: write slices `zmin..zmax` of the input data into the
destination array at `z ∈ [zmin + off, zmax + off)`, over the full `x, y`
extent (the source writes `arr_zarr[:, :, zstart:zend]`). -/
def copySlab (a : Zarr3) (d : ℕ → ℕ → ℕ → ℤ) (zmin zmax off : ℕ) : Zarr3 :=
  { a with data := fun x y z =>
      if zmin + off ≤ z ∧ z < zmax + off then d x y (z - off) else a.data x y z }

/-- The slab index list of `add_full_res_data`:
`[(z, min(z + chunk_size, nz)) for z in range(0, nz, chunk_size)]`. -/
def slabIdxs (nz cs : ℕ) : List (ℕ × ℕ) :=
  (pyRange nz cs).map (fun z => (z, min (z + cs) nz))

/-- Apply the whole slab list of one `add_full_res_data` call to an array. -/
def applySlabs (slabs : List (ℕ × ℕ)) (d : ℕ → ℕ → ℕ → ℤ) (off : ℕ)
    (a : Zarr3) : Zarr3 :=
  slabs.foldl (fun acc s => copySlab acc d s.1 s.2 off) a

/-- Replace the array stored under key `k` by `f` of itself. -/
def Group.updateArr (g : Group) (k : ℤ) (f : Zarr3 → Zarr3) : Group :=
  ⟨g.arrays.map (fun p => if p.1 = k then (p.1, f p.2) else p)⟩

/-- The error (if any) raised by `MultiScaleGroup.add_full_res_data` before
any data is copied, in source order: level-0 array missing, `start_z_idx` not
a multiple of the chunk size, input chunk size along `z` not `1`.  (The
`assert data.ndim == 3` holds by construction: `DaskArr` is 3-dimensional.) -/
def addFullResErr (g : Group) (d : DaskArr) (startZ : ℕ) : Option StcError :=
  if (0 : ℤ) ∉ g.keys then some .fullResMissing
  else if startZ % chunkSize0 g ≠ 0 then
    some (.startNotMultiple startZ (chunkSize0 g))
  else if d.chunksize.2.2 ≠ 1 then some (.badChunkSize d.chunksize)
  else none

/-- The state after `MultiScaleGroup.add_full_res_data` runs its copy jobs:
every slab `(zmin, zmax)` of the input is copied into the level-0 array at
`z ∈ [zmin + start_z_idx, zmax + start_z_idx)`. -/
def addFullResRun (g : Group) (d : DaskArr) (startZ : ℕ) : Group :=
  g.updateArr 0 (applySlabs (slabIdxs d.shape.2.2 (chunkSize0 g)) d.data startZ)

/-- The destination ("out_slice") write region of `_downsample_block` for a
block index `b`, shard shape `shard` and destination shape `sOut`:
`[b, min(b + shard, sOut))` per axis. -/
def inOutRegion (b shard sOut p : ℕ × ℕ × ℕ) : Prop :=
  (b.1 ≤ p.1 ∧ p.1 < min (b.1 + shard.1) sOut.1) ∧
  (b.2.1 ≤ p.2.1 ∧ p.2.1 < min (b.2.1 + shard.2.1) sOut.2.1) ∧
  (b.2.2 ≤ p.2.2 ∧ p.2.2 < min (b.2.2 + shard.2.2) sOut.2.2)

instance (b shard sOut p : ℕ × ℕ × ℕ) : Decidable (inOutRegion b shard sOut p) := by
  unfold inOutRegion; infer_instance

/-- `_downsample_block(arr_in, arr_out, block_idx)`.  The shard shape is the
chunk shape of the destination array (`arr_out.chunk_layout.write_chunk`).
The source read region ("in_slice") is
`[b * 2, min((b + shard) * 2, arr_in.shape))` per axis; a dimension of odd
length is edge-padded by one (`np.pad(..., mode="edge")`); the padded cube is
reduced over disjoint 2×2×2 sub-blocks by arithmetic mean
(`skimage.measure.block_reduce(..., func=np.mean)`, exact in float64 for the
magnitudes involved) and cast back to the integer dtype (truncation towards
zero); the result is written to `[b, min(b + shard, arr_out.shape))`.
The `np.testing.assert_equal(block_idx % shard, 0)` precondition is the
separate predicate `blockAligned`. -/
def downsampleBlock (arrIn arrOut : Zarr3) (b : ℕ × ℕ × ℕ) : Zarr3 :=
  let shard := arrOut.chunks
  let lo : ℕ × ℕ × ℕ := (b.1 * 2, b.2.1 * 2, b.2.2 * 2)
  let len : ℕ × ℕ × ℕ :=
    (min ((b.1 + shard.1) * 2) arrIn.shape.1 - lo.1,
     min ((b.2.1 + shard.2.1) * 2) arrIn.shape.2.1 - lo.2.1,
     min ((b.2.2 + shard.2.2) * 2) arrIn.shape.2.2 - lo.2.2)
  -- value of the edge-padded read region at relative offset (t1, t2, t3)
  let pv : ℕ → ℕ → ℕ → ℤ := fun t1 t2 t3 =>
    arrIn.data (lo.1 + min t1 (len.1 - 1)) (lo.2.1 + min t2 (len.2.1 - 1))
      (lo.2.2 + min t3 (len.2.2 - 1))
  -- the reduced cube: mean over each disjoint 2×2×2 sub-block, cast to int
  let reducedCube : ℕ → ℕ → ℕ → ℤ := fun i j k =>
    Int.tdiv
      (pv (2 * i) (2 * j) (2 * k) + pv (2 * i) (2 * j) (2 * k + 1) +
       pv (2 * i) (2 * j + 1) (2 * k) + pv (2 * i) (2 * j + 1) (2 * k + 1) +
       pv (2 * i + 1) (2 * j) (2 * k) + pv (2 * i + 1) (2 * j) (2 * k + 1) +
       pv (2 * i + 1) (2 * j + 1) (2 * k) +
       pv (2 * i + 1) (2 * j + 1) (2 * k + 1)) 8
  { arrOut with data := fun x y z =>
      if inOutRegion b shard arrOut.shape (x, y, z) then
        reducedCube (x - b.1) (y - b.2.1) (z - b.2.2)
      else arrOut.data x y z }

/-- The `np.testing.assert_equal(np.array(block_idx) % np.array(shard), 0)`
precondition of `_downsample_block`. -/
def blockAligned (b shard : ℕ × ℕ × ℕ) : Prop :=
  b.1 % shard.1 = 0 ∧ b.2.1 % shard.2.1 = 0 ∧ b.2.2 % shard.2.2 = 0

/-- The block index list of `add_downsample_level`:
`(x, y, z)` for each axis ranging over `range(0, source_arr.shape[axis],
chunk_size * 2)` where `chunk_size = source_arr.chunks[0]`. -/
def blockIndices (s : ℕ × ℕ × ℕ) (chunkSize : ℕ) : List (ℕ × ℕ × ℕ) :=
  (pyRange s.1 (chunkSize * 2)).flatMap (fun x =>
    (pyRange s.2.1 (chunkSize * 2)).flatMap (fun y =>
      (pyRange s.2.2 (chunkSize * 2)).map (fun z => (x, y, z))))

/-- The error (if any) raised by `MultiScaleGroup.add_downsample_level`, in
source order: `not (level >= 1 and int(level) == level)`, then
`str(int(level)) in self._group`, then `str(int(level) - 1) not in
self._group`. -/
def addDownsampleLevelErr (g : Group) (level : ℚ) : Option StcError :=
  if ¬(1 ≤ level ∧ ((pyInt level : ℤ) : ℚ) = level) then some .invalidLevel
  else if pyInt level ∈ g.keys then some (.levelExists (pyInt level))
  else if pyInt level - 1 ∉ g.keys then some (.levelBelowMissing (pyInt level - 1))
  else none

/-- The state after `MultiScaleGroup.add_downsample_level` runs: a new array
with shape `ceil(source_shape / 2)` per axis, the source's chunk shape and
fill value `0` is created under key `int(level)`, and every block task of
`blockIndices` is applied to it.  (When the level below is absent the code
has already raised; we return the group unchanged in that case.) -/
def addDownsampleLevelRun (g : Group) (level : ℚ) : Group :=
  match g.lookupArr (pyInt level - 1) with
  | none => g
  | some src =>
    let sink0 : Zarr3 := ⟨ceilHalf src.shape, src.chunks, fun _ _ _ => 0⟩
    let sink := (blockIndices src.shape src.chunks.1).foldl
      (fun a b => downsampleBlock src a b) sink0
    ⟨g.arrays ++ [(pyInt level, sink)]⟩

/-! ### The persisted multiscale metadata document and `open_multiscale_group` -/

/-- One entry of a dataset's `coordinateTransformations` list. -/
inductive CoordTransform where
  | scale (v : List ℚ) : CoordTransform
  | translation (v : List ℚ) : CoordTransform
deriving DecidableEq

/-- One entry of the `datasets` list of the multiscale document. -/
structure DatasetMeta where
  path : String
  transforms : List CoordTransform
deriving DecidableEq

/-- The multiscale document (`attrs["ome"]["multiscales"][0]`): the fields
`open_multiscale_group` reads. -/
structure MultiscalesDoc where
  name : String
  unit : String
  datasets : List DatasetMeta
deriving DecidableEq

/-- The persisted group attributes; the `ome` key may be absent. -/
structure GroupAttrs where
  ome : Option MultiscalesDoc
deriving DecidableEq

/-- The result of `open_multiscale_group`: the attributes as persisted after
the call, and the name / voxel size / spatial unit read from them. -/
structure OpenedGroup where
  storedAttrs : GroupAttrs
  name : String
  voxelSize : List ℚ
  unit : String
deriving DecidableEq

/-- `open_multiscale_group(path)`: read `attrs["ome"]["multiscales"][0]`,
take `name`, `datasets[0]["coordinateTransformations"]`, read the voxel size
from `transforms[0]["scale"]` (a `KeyError` when the first transform is not a
scale), the unit from `axes[0]["unit"]`, and construct a `MultiScaleGroup`
(which, the path existing, only validates that the voxel size has length 3).
The persisted attributes are returned unchanged: the function performs no
metadata write. -/
def openMultiscaleGroup (attrs : GroupAttrs) : Except StcError OpenedGroup :=
  match attrs.ome with
  | none => .error (.keyError "ome")
  | some ms =>
    match ms.datasets with
    | [] => .error (.keyError "datasets[0]")
    | d0 :: _ =>
      match d0.transforms with
      | CoordTransform.scale v :: _ =>
          if v.length = 3 then .ok ⟨attrs, ms.name, v, ms.unit⟩
          else .error .badVoxelSize
      | _ => .error (.keyError "scale")

/-! ### Concrete fixtures (taken from the repository's own tests) -/

/-- The data read back from the level-0 array (fill value `0` when the level-0
array is absent, a state in which the code has already raised). -/
def level0Data (g : Group) : ℕ → ℕ → ℕ → ℤ :=
  match g.lookupArr 0 with
  | some a => a.data
  | none => fun _ _ _ => 0

/-- `test_known_data`: `np.arange(8).reshape((2, 2, 2))` rechunked to
`(2, 2, 1)`; the value at `(x, y, z)` is `4x + 2y + z`. -/
def knownInput : DaskArr :=
  ⟨(2, 2, 2), (2, 2, 1), fun x y z => ((4 * x + 2 * y + z : ℕ) : ℤ)⟩

/-- `test_known_data`: the freshly created group, whose level-0 array has
shape `(2, 2, 2)`, chunks `(1, 1, 1)` and fill value `0`. -/
def knownGroup0 : Group := ⟨[(0, ⟨(2, 2, 2), (1, 1, 1), fun _ _ _ => 0⟩)]⟩

/-- `test_known_data` after `add_full_res_data(arr, n_processes=1)`. -/
def knownLevel0 : Group := addFullResRun knownGroup0 knownInput 0

/-- `test_known_data` after `add_downsample_level(1, n_processes=1)`. -/
def knownResult : Group := addDownsampleLevelRun knownLevel0 1

/-- `test_padding`: `arange(8).reshape((2, 2, 2))` with the extra slice
`[[10, 10], [12, 16]]` appended along the first axis, rechunked `(2, 2, 1)`. -/
def padInput : DaskArr :=
  ⟨(3, 2, 2), (2, 2, 1), fun x y z =>
    if x ≤ 1 then ((4 * x + 2 * y + z : ℕ) : ℤ)
    else if y = 0 then 10 else if z = 0 then 12 else 16⟩

/-- `test_padding`: the freshly created group (chunks `(1, 1, 1)`). -/
def padGroup0 : Group := ⟨[(0, ⟨(3, 2, 2), (1, 1, 1), fun _ _ _ => 0⟩)]⟩

/-- `test_padding` after `add_full_res_data(arr, n_processes=1)`. -/
def padLevel0 : Group := addFullResRun padGroup0 padInput 0

/-- `test_padding` after `add_downsample_level(1, n_processes=1)`. -/
def padResult : Group := addDownsampleLevelRun padLevel0 1

/-- The level-0 array of the padding test after the full-resolution copy. -/
def padArr0 : Zarr3 :=
  (padLevel0.lookupArr 0).getD ⟨(0, 0, 0), (0, 0, 0), fun _ _ _ => 0⟩

/-- The freshly created level-1 array of the padding test (shape
`ceil((3,2,2) / 2) = (2,1,1)`, fill value `0`). -/
def padSink0 : Zarr3 := ⟨ceilHalf padArr0.shape, padArr0.chunks, fun _ _ _ => 0⟩

/-- `test_fix_transform_order`: persisted metadata whose transform list has
translation `[0.5, 0.5, 0.5]` before scale `[3.0, 4.0, 5.0]` (the historical
malformed order). -/
def malformedAttrs : GroupAttrs :=
  ⟨some ⟨"my_zarr_group", "centimeter",
    [⟨"0", [CoordTransform.translation [mkRat 1 2, mkRat 1 2, mkRat 1 2],
            CoordTransform.scale [3, 4, 5]]⟩]⟩⟩

/-- A group holding no arrays at all. -/
def emptyGroup : Group := ⟨[]⟩

/-- An inert input volume, used where only the error path matters. -/
def dummyDask : DaskArr := ⟨(1, 1, 1), (1, 1, 1), fun _ _ _ => 0⟩

/-- A level-0 array of shape `(583, 245, 156)` (the shape used by the test
fixture `arr`) with cubic chunks of side 64. -/
def arr583 : Zarr3 := ⟨(583, 245, 156), (64, 64, 64), fun _ _ _ => 0⟩

/-- A group holding only `arr583` as level 0. -/
def g583 : Group := ⟨[(0, arr583)]⟩

/-- A level-0 array with cubic chunks of side 4. -/
def arrW : Zarr3 := ⟨(8, 8, 8), (4, 4, 4), fun _ _ _ => 0⟩

/-- A group holding only `arrW` as level 0. -/
def gW : Group := ⟨[(0, arrW)]⟩

/-- An input volume with 1-slice chunking along `z`. -/
def dW : DaskArr := ⟨(8, 8, 8), (8, 8, 1), fun _ _ _ => 0⟩

/-! ### Helper lemmas -/

theorem mem_insertSorted {a x : ℤ} {l : List ℤ} :
    a ∈ insertSorted x l ↔ a = x ∨ a ∈ l := by
  induction l with
  | nil => simp [insertSorted]
  | cons y ys ih =>
    simp only [insertSorted]
    split
    · simp [List.mem_cons]
    · simp only [List.mem_cons, ih]
      tauto

theorem mem_sortInts {a : ℤ} {l : List ℤ} : a ∈ sortInts l ↔ a ∈ l := by
  induction l with
  | nil => simp [sortInts]
  | cons x xs ih => simp [sortInts, mem_insertSorted, ih]

theorem mem_levels {g : Group} {a : ℤ} : a ∈ g.levels ↔ a ∈ g.keys :=
  mem_sortInts

theorem find?_fst_isSome {l : List (ℤ × Zarr3)} {k : ℤ} :
    (l.find? (fun p => p.1 == k)).isSome ↔ k ∈ l.map Prod.fst := by
  induction l with
  | nil => simp
  | cons p rest ih =>
    by_cases h : p.1 = k
    · simp [List.find?_cons, h]
    · have hb : (p.1 == k) = false := by simpa using h
      simp only [List.find?_cons, hb, List.map_cons, List.mem_cons, ih]
      constructor
      · exact Or.inr
      · rintro (h1 | h2)
        · exact absurd h1.symm h
        · exact h2

theorem lookupArr_isSome_iff {g : Group} {k : ℤ} :
    (g.lookupArr k).isSome ↔ k ∈ g.keys := by
  unfold Group.lookupArr Group.keys
  have h : (Option.map Prod.snd (g.arrays.find? (fun p => p.1 == k))).isSome =
      (g.arrays.find? (fun p => p.1 == k)).isSome := by
    cases g.arrays.find? (fun p => p.1 == k) <;> rfl
  rw [h]
  exact find?_fst_isSome

theorem mem_keys_iff_lookup {g : Group} {k : ℤ} :
    k ∈ g.keys ↔ ∃ a, g.lookupArr k = some a := by
  rw [← lookupArr_isSome_iff, Option.isSome_iff_exists]

theorem mem_keys_of_lookup {g : Group} {k : ℤ} {a : Zarr3}
    (h : g.lookupArr k = some a) : k ∈ g.keys :=
  mem_keys_iff_lookup.mpr ⟨a, h⟩

theorem lookupArr_append_right {l : List (ℤ × Zarr3)} {k : ℤ} {a : Zarr3}
    (h : k ∉ l.map Prod.fst) :
    Group.lookupArr ⟨l ++ [(k, a)]⟩ k = some a := by
  unfold Group.lookupArr
  induction l with
  | nil => simp [List.find?_cons]
  | cons p rest ih =>
    simp only [List.map_cons, List.mem_cons] at h
    push_neg at h
    have hb : (p.1 == k) = false := by simpa using fun hh => h.1 hh.symm
    simp only [List.cons_append, List.find?_cons, hb]
    exact ih h.2

theorem copySlab_chunks (a : Zarr3) (d : ℕ → ℕ → ℕ → ℤ) (zmin zmax off : ℕ) :
    (copySlab a d zmin zmax off).chunks = a.chunks := rfl

theorem applySlabs_chunks (slabs : List (ℕ × ℕ)) (d : ℕ → ℕ → ℕ → ℤ)
    (off : ℕ) (a : Zarr3) : (applySlabs slabs d off a).chunks = a.chunks := by
  induction slabs generalizing a with
  | nil => rfl
  | cons s rest ih =>
    simp only [applySlabs, List.foldl_cons] at *
    rw [ih]
    rfl

theorem applySlabs_data (slabs : List (ℕ × ℕ)) (d : ℕ → ℕ → ℕ → ℤ)
    (off : ℕ) (a : Zarr3) (x y z : ℕ) :
    (applySlabs slabs d off a).data x y z =
      if ∃ s ∈ slabs, s.1 + off ≤ z ∧ z < s.2 + off then d x y (z - off)
      else a.data x y z := by
  induction slabs generalizing a with
  | nil => simp [applySlabs]
  | cons s rest ih =>
    simp only [applySlabs, List.foldl_cons] at *
    rw [ih]
    by_cases hrest : ∃ t ∈ rest, t.1 + off ≤ z ∧ z < t.2 + off
    · have hcons : ∃ t ∈ s :: rest, t.1 + off ≤ z ∧ z < t.2 + off := by
        obtain ⟨t, ht, hc⟩ := hrest
        exact ⟨t, List.mem_cons_of_mem s ht, hc⟩
      rw [if_pos hrest, if_pos hcons]
    · by_cases hs : s.1 + off ≤ z ∧ z < s.2 + off
      · have hcons : ∃ t ∈ s :: rest, t.1 + off ≤ z ∧ z < t.2 + off :=
          ⟨s, List.mem_cons_self s rest, hs⟩
        rw [if_neg hrest, if_pos hcons]
        show (if s.1 + off ≤ z ∧ z < s.2 + off then d x y (z - off)
          else a.data x y z) = d x y (z - off)
        rw [if_pos hs]
      · have hcons : ¬∃ t ∈ s :: rest, t.1 + off ≤ z ∧ z < t.2 + off := by
          rintro ⟨t, ht, hc⟩
          rcases List.mem_cons.mp ht with rfl | htr
          · exact hs hc
          · exact hrest ⟨t, htr, hc⟩
        rw [if_neg hrest, if_neg hcons]
        show (if s.1 + off ≤ z ∧ z < s.2 + off then d x y (z - off)
          else a.data x y z) = a.data x y z
        rw [if_neg hs]

theorem map_fst_update (l : List (ℤ × Zarr3)) (k : ℤ) (f : Zarr3 → Zarr3) :
    (l.map (fun p => if p.1 = k then (p.1, f p.2) else p)).map Prod.fst =
      l.map Prod.fst := by
  induction l with
  | nil => rfl
  | cons p rest ih =>
    by_cases h : p.1 = k <;> simp [h, ih]

theorem keys_updateArr (g : Group) (k : ℤ) (f : Zarr3 → Zarr3) :
    (g.updateArr k f).keys = g.keys := by
  simpa [Group.updateArr, Group.keys] using map_fst_update g.arrays k f

theorem find?_update_self (l : List (ℤ × Zarr3)) (k : ℤ) (f : Zarr3 → Zarr3) :
    ((l.map (fun p => if p.1 = k then (p.1, f p.2) else p)).find?
        (fun p => p.1 == k)).map Prod.snd =
      ((l.find? (fun p => p.1 == k)).map Prod.snd).map f := by
  induction l with
  | nil => rfl
  | cons p rest ih =>
    by_cases h : p.1 = k
    · simp [List.find?_cons, h]
    · have hb : (p.1 == k) = false := by simpa using h
      simp only [List.map_cons, if_neg h, List.find?_cons, hb, ih]

theorem lookupArr_updateArr_self (g : Group) (k : ℤ) (f : Zarr3 → Zarr3) :
    (g.updateArr k f).lookupArr k = (g.lookupArr k).map f := by
  unfold Group.lookupArr Group.updateArr
  exact find?_update_self g.arrays k f

theorem keys_addFullResRun (g : Group) (d : DaskArr) (startZ : ℕ) :
    (addFullResRun g d startZ).keys = g.keys :=
  keys_updateArr g 0 _

theorem chunkSize0_addFullResRun (g : Group) (d : DaskArr) (startZ : ℕ) :
    chunkSize0 (addFullResRun g d startZ) = chunkSize0 g := by
  unfold chunkSize0 addFullResRun
  rw [lookupArr_updateArr_self]
  cases h : g.lookupArr 0 with
  | none => rfl
  | some a => simp [applySlabs_chunks]

theorem addFullResErr_addFullResRun (g : Group) (d : DaskArr) (startZ : ℕ) :
    addFullResErr (addFullResRun g d startZ) d startZ =
      addFullResErr g d startZ := by
  unfold addFullResErr
  rw [keys_addFullResRun, chunkSize0_addFullResRun]

theorem level0Data_addFullResRun (g : Group) (d : DaskArr) (startZ : ℕ)
    (a : Zarr3) (ha : g.lookupArr 0 = some a) :
    level0Data (addFullResRun g d startZ) =
      (applySlabs (slabIdxs d.shape.2.2 (chunkSize0 g)) d.data startZ a).data := by
  unfold level0Data addFullResRun
  rw [lookupArr_updateArr_self, ha]
  rfl

theorem addDownsampleLevelErr_eq_none_iff {g : Group} {level : ℚ} :
    addDownsampleLevelErr g level = none ↔
      (1 ≤ level ∧ ((pyInt level : ℤ) : ℚ) = level) ∧
      pyInt level ∉ g.keys ∧ pyInt level - 1 ∈ g.keys := by
  unfold addDownsampleLevelErr
  split_ifs with h1 h2 h3 <;> simp_all

theorem foldl_downsampleBlock_shape (src : Zarr3) (blocks : List (ℕ × ℕ × ℕ))
    (a : Zarr3) :
    (blocks.foldl (fun acc b => downsampleBlock src acc b) a).shape = a.shape := by
  induction blocks generalizing a with
  | nil => rfl
  | cons b rest ih =>
    simp only [List.foldl_cons]
    rw [ih]
    rfl

theorem intCast_pyInt_eq_iff {q : ℚ} :
    ((pyInt q : ℤ) : ℚ) = q ↔ ∃ n : ℤ, q = (n : ℚ) := by
  constructor
  · intro h
    exact ⟨pyInt q, h.symm⟩
  · rintro ⟨n, rfl⟩
    unfold pyInt
    simp

/-! ### The claims -/

/-- Claim C1.  The claim states that the downsample block tasks generated by
stepping `(bx, by, bz)` by `2*C` across the full source shape, each reading
`[b, min(b + 2*C, S))` and writing `[b/2, min(b/2 + C, ceil(S/2)))`, tile the
destination exactly (every destination element written by exactly one block).
The code diverges from this (and from `_downsample_block`'s own docstring and
from `test_padding`): `_downsample_block` reads `[2*b, min(2*b + 2*C, S))`
and writes `[b, min(b + C, ceil(S/2)))`, so with the generated indices the
destination is NOT tiled.  For source shape `(3, 2, 2)` and chunk size
`C = 1` (the `test_padding` configuration) the generated block indices are
`(0,0,0)` and `(2,0,0)`, and the destination element `(1, 0, 0)` of the
`(2, 1, 1)`-shaped destination lies in the write region of zero blocks. -/
theorem blockIndices_leave_destination_gap :
    ((blockIndices (3, 2, 2) 1).countP
        (fun b => decide (inOutRegion b (1, 1, 1) (2, 1, 1) (1, 0, 0)))) = 0 ∧
    blockIndices (3, 2, 2) 1 = [(0, 0, 0), (2, 0, 0)] := by decide

/-- Claim C2 (counterexample to the claim as stated).  After a first
`add_full_res_data` call has fully recorded level 0 (the `test_known_data`
data, full z-range), a second call over the same full range raises no error
at all — in particular no already-added error: the code has no such guard. -/
theorem addFullRes_second_call_no_error :
    addFullResErr (addFullResRun knownGroup0 knownInput 0) knownInput 0 =
      none := by decide

/-- Claim C2 (amended).  On a group where a first `add_full_res_data` call
succeeded, calling `add_full_res_data` again with the same data over the same
full z-range does not raise (there is no already-added guard); the second
call re-copies the same data, so the contents of the level-0 array are
unchanged by it. -/
theorem addFullRes_rerun_noop (g : Group) (d : DaskArr) (startZ : ℕ)
    (h : addFullResErr g d startZ = none) :
    addFullResErr (addFullResRun g d startZ) d startZ = none ∧
    ∀ x y z, level0Data (addFullResRun (addFullResRun g d startZ) d startZ) x y z =
      level0Data (addFullResRun g d startZ) x y z := by
  have h0 : (0 : ℤ) ∈ g.keys := by
    by_contra h0
    unfold addFullResErr at h
    rw [if_pos h0] at h
    exact Option.noConfusion h
  obtain ⟨a, ha⟩ := mem_keys_iff_lookup.mp h0
  refine ⟨by rw [addFullResErr_addFullResRun]; exact h, fun x y z => ?_⟩
  have ha1 : (addFullResRun g d startZ).lookupArr 0 =
      some (applySlabs (slabIdxs d.shape.2.2 (chunkSize0 g)) d.data startZ a) := by
    unfold addFullResRun
    rw [lookupArr_updateArr_self, ha]
    rfl
  rw [level0Data_addFullResRun (addFullResRun g d startZ) d startZ _ ha1,
    level0Data_addFullResRun g d startZ a ha, chunkSize0_addFullResRun,
    applySlabs_data, applySlabs_data]
  by_cases hcov : ∃ s ∈ slabIdxs d.shape.2.2 (chunkSize0 g),
      s.1 + startZ ≤ z ∧ z < s.2 + startZ
  · rw [if_pos hcov, if_pos hcov]
  · rw [if_neg hcov, if_neg hcov]

-- Witness for the amended claim C2 at the `test_known_data` input.
theorem addFullRes_rerun_noop_witness :
    addFullResErr (addFullResRun knownGroup0 knownInput 0) knownInput 0 = none ∧
    level0Data (addFullResRun (addFullResRun knownGroup0 knownInput 0)
        knownInput 0) 1 1 1 =
      level0Data (addFullResRun knownGroup0 knownInput 0) 1 1 1 := by
  obtain ⟨h1, h2⟩ := addFullRes_rerun_noop knownGroup0 knownInput 0 (by decide)
  exact ⟨h1, h2 1 1 1⟩

/-- Claim C3.  The claim states that opening a persisted group whose stored
transform list has translation before scale rewrites the metadata in place to
the canonical order before returning.  The code diverges from this (and from
its own test `test_fix_transform_order`): `open_multiscale_group` contains no
repair logic at all — it unconditionally reads `transforms[0]["scale"]`,
which on the malformed document (translation `[0.5, 0.5, 0.5]` before scale
`[3, 4, 5]`, the `test_fix_transform_order` fixture) raises a `KeyError`
instead of repairing and returning; no metadata write ever happens. -/
theorem openMultiscaleGroup_malformed_raises :
    openMultiscaleGroup malformedAttrs = .error (.keyError "scale") := rfl

/-- Claim C4 (counterexample to the claim as stated).  The claim states that
`add_full_res_data` on a group without a level-0 array creates the array
rather than failing.  The code fails: on a group with no level-0 array the
call raises `RuntimeError("Full resolution dataset not present. ...")`. -/
theorem addFullRes_missing_level0_raises_concrete :
    addFullResErr emptyGroup dummyDask 0 = some .fullResMissing := by decide

/-- Claim C4 (amended).  When `add_full_res_data` is called on a group whose
level-0 array does not yet exist, it raises a runtime error telling the user
to create the initial dataset first, rather than creating the array; the
slab-copy tasks are only dispatched when the level-0 array already exists
(level-0 metadata is written at group creation, not by this call). -/
theorem addFullRes_missing_level0_raises (g : Group) (d : DaskArr)
    (startZ : ℕ) (h : (0 : ℤ) ∉ g.keys) :
    addFullResErr g d startZ = some .fullResMissing := by
  unfold addFullResErr
  rw [if_pos h]

-- Witness for the amended claim C4 on the empty group.
theorem addFullRes_missing_level0_raises_witness :
    addFullResErr emptyGroup dummyDask 0 = some .fullResMissing :=
  addFullRes_missing_level0_raises emptyGroup dummyDask 0 (by decide)

/-- Claim C5.  Whenever `add_downsample_level(level)` passes its guards, the
array it creates under key `int(level)` has shape
`ceil(shape(level - 1) / 2)` per axis — the ceiling is applied afresh to the
previous level's shape on every call, so rounding compounds. -/
theorem addDownsampleLevel_shape_halving (g : Group) (level : ℚ) (src : Zarr3)
    (herr : addDownsampleLevelErr g level = none)
    (hsrc : g.lookupArr (pyInt level - 1) = some src) :
    ((addDownsampleLevelRun g level).lookupArr (pyInt level)).map Zarr3.shape =
      some (ceilHalf src.shape) := by
  obtain ⟨-, hnotmem, -⟩ := addDownsampleLevelErr_eq_none_iff.mp herr
  unfold addDownsampleLevelRun
  rw [hsrc]
  show (Group.lookupArr ⟨g.arrays ++ [(pyInt level, _)]⟩ (pyInt level)).map
    Zarr3.shape = _
  rw [lookupArr_append_right hnotmem]
  simp only [Option.map_some']
  rw [foldl_downsampleBlock_shape]

-- Witness for claim C5: a level-0 volume of shape (583, 245, 156) gives a
-- level-1 array of shape (292, 123, 78).
theorem addDownsampleLevel_shape_halving_witness :
    addDownsampleLevelErr g583 1 = none ∧
    ((addDownsampleLevelRun g583 1).lookupArr (pyInt 1)).map Zarr3.shape =
      some (292, 123, 78) := by
  refine ⟨by decide, ?_⟩
  have h := addDownsampleLevel_shape_halving g583 1 arr583 (by decide) rfl
  exact h.trans (by decide)

/-- Claim C6.  `add_downsample_level(level)` raises exactly when the level
argument is invalid or out of sequence: an invalid-level error when `level`
is not an integer that is at least 1, a level-already-exists error when the
level is already present, a level-below-missing error when `level - 1` is
absent; otherwise the call proceeds with no error. -/
theorem addDownsampleLevel_guards (g : Group) (level : ℚ) :
    (¬(1 ≤ level ∧ ∃ n : ℤ, level = (n : ℚ)) →
        addDownsampleLevelErr g level = some .invalidLevel) ∧
    ((1 ≤ level ∧ ∃ n : ℤ, level = (n : ℚ)) → pyInt level ∈ g.keys →
        addDownsampleLevelErr g level = some (.levelExists (pyInt level))) ∧
    ((1 ≤ level ∧ ∃ n : ℤ, level = (n : ℚ)) → pyInt level ∉ g.keys →
        pyInt level - 1 ∉ g.keys →
        addDownsampleLevelErr g level =
          some (.levelBelowMissing (pyInt level - 1))) ∧
    ((1 ≤ level ∧ ∃ n : ℤ, level = (n : ℚ)) → pyInt level ∉ g.keys →
        pyInt level - 1 ∈ g.keys →
        addDownsampleLevelErr g level = none) := by
  have hcond : (1 ≤ level ∧ ((pyInt level : ℤ) : ℚ) = level) ↔
      (1 ≤ level ∧ ∃ n : ℤ, level = (n : ℚ)) :=
    and_congr_right fun _ => intCast_pyInt_eq_iff
  refine ⟨fun h => ?_, fun h hmem => ?_, fun h hnot hbelow => ?_,
    fun h hnot hbelow => ?_⟩
  · unfold addDownsampleLevelErr
    rw [if_pos (fun hc => h (hcond.mp hc))]
  · unfold addDownsampleLevelErr
    rw [if_neg (not_not_intro (hcond.mpr h)), if_pos hmem]
  · unfold addDownsampleLevelErr
    rw [if_neg (not_not_intro (hcond.mpr h)), if_neg hnot, if_pos hbelow]
  · unfold addDownsampleLevelErr
    rw [if_neg (not_not_intro (hcond.mpr h)), if_neg hnot,
      if_neg (not_not_intro hbelow)]

-- Witness for claim C6: on the empty group, `add_downsample_level(2)` raises
-- the level-below-missing error.
theorem addDownsampleLevel_guards_witness :
    addDownsampleLevelErr emptyGroup 2 =
      some (.levelBelowMissing (pyInt 2 - 1)) :=
  (addDownsampleLevel_guards emptyGroup 2).2.2.1 ⟨by decide, 2, by decide⟩
    (by decide) (by decide)

/-- Claim C7.  The downsample reduction takes the arithmetic mean of each
disjoint 2×2×2 sub-block in an exact (wider-than-storage) accumulator and
casts back to the storage type: for the input `arange(8).reshape(2, 2, 2)`
with 1-slice z-chunking, after `add_full_res_data` and one downsample level
the single output voxel is `3` (the truncated mean `28 / 8` of the eight
inputs `0..7`), as `test_known_data` asserts. -/
theorem known_data_downsample_mean :
    addFullResErr knownGroup0 knownInput 0 = none ∧
    addDownsampleLevelErr knownLevel0 1 = none ∧
    (knownResult.lookupArr 1).map (fun a => (a.shape, a.data 0 0 0)) =
      some ((1, 1, 1), 3) := by decide

/-- Claim C8.  The claim states that odd read-region dimensions are
edge-padded before the 2×2×2 mean reduction and that for the `(3, 2, 2)`
padding-test input the output is `[[[3]], [[12]]]`.  The padding logic itself
is correct — applying `_downsample_block` with the destination-aligned index
`(1, 0, 0)` to the copied level-0 data does produce `12` via edge padding
(second conjunct) — but the pipeline as wired diverges from the claim and
from `test_padding`: the block task list leaves destination element
`(1, 0, 0)` unwritten, so the stored output is `[[[3]], [[0]]]`, not
`[[[3]], [[12]]]` (first conjunct). -/
theorem padding_downsample_bug :
    (padResult.lookupArr 1).map
        (fun a => (a.shape, a.data 0 0 0, a.data 1 0 0)) =
      some ((2, 1, 1), 3, 0) ∧
    (downsampleBlock padArr0 padSink0 (1, 0, 0)).data 1 0 0 = 12 := by decide

/-- Claim C9.  On a group whose level-0 array exists, `add_full_res_data`
raises the not-a-multiple usage error exactly when `start_z_idx` is not a
multiple of the level-0 chunk size; when it is a multiple, that check
passes (the call is never silently truncated or rounded). -/
theorem startZ_alignment_check (g : Group) (d : DaskArr) (startZ : ℕ)
    (h0 : (0 : ℤ) ∈ g.keys) :
    addFullResErr g d startZ =
        some (.startNotMultiple startZ (chunkSize0 g)) ↔
      startZ % chunkSize0 g ≠ 0 := by
  unfold addFullResErr
  rw [if_neg (not_not_intro h0)]
  by_cases hm : startZ % chunkSize0 g ≠ 0
  · rw [if_pos hm]
    simp [hm]
  · rw [if_neg hm]
    split_ifs <;> simp [hm]

-- Witness for claim C9: chunk size 4, start_z_idx 2 raises the usage error.
theorem startZ_alignment_check_witness :
    addFullResErr gW dW 2 = some (.startNotMultiple 2 (chunkSize0 gW)) :=
  (startZ_alignment_check gW dW 2 (by decide)).mpr (by decide)

/-- Claim C10.  `group[level]` raises the `ValueError` exactly when `level`
is not among the currently present levels; otherwise it returns the array
stored for that level. -/
theorem getItem_spec (g : Group) (level : ℤ) :
    (getItem g level = .error (.notInLevels level) ↔ level ∉ g.levels) ∧
    (∀ a, g.lookupArr level = some a → getItem g level = .ok a) := by
  constructor
  · constructor
    · intro h hmem
      unfold getItem at h
      rw [if_pos hmem] at h
      cases hl : g.lookupArr level with
      | none =>
        have hs := lookupArr_isSome_iff.mpr (mem_levels.mp hmem)
        rw [hl] at hs
        exact Bool.noConfusion hs
      | some a =>
        rw [hl] at h
        simp at h
    · intro hmem
      unfold getItem
      rw [if_neg hmem]
  · intro a ha
    unfold getItem
    rw [if_pos (mem_levels.mpr (mem_keys_of_lookup ha)), ha]

-- Witness for claim C10: fetching present level 0 returns the stored array;
-- fetching absent level 5 raises the ValueError.
theorem getItem_spec_witness :
    getItem gW 0 = .ok arrW ∧ getItem gW 5 = .error (.notInLevels 5) :=
  ⟨(getItem_spec gW 0).2 arrW rfl, (getItem_spec gW 5).1.mpr (by decide)⟩

end StackToChunk
